import Mathlib

/-!
Shallow embedding of the `keeplisten` terminal music player.

The embedding covers:
* `src/audio.rs`  — the playback controller: the `PlaybackState` snapshot, the
  owned external-process slot (`AUDIO_CHILD`), and the operations
  `play_audio`, `stop_audio`, `pause_audio`, `resume_audio`, `set_volume`,
  `seek_to`, `update_position`.
* `src/playlist.rs` — `Track`, `Playlist`, `PlaylistManager` and its
  operations, including the m3u persistence pair
  `save_all_to_dir` / `load_all_from_dir`.
* `src/main.rs` — the session layer `AppState` with `next_track`,
  `previous_track`, `play_current_track`, `adjust_volume`.

Modelling conventions:
* `std::time::Instant` and `Duration` are abstract `Nat` time units; every
  operation that reads `Instant::now()` in the source takes the current
  instant as an explicit `now : Nat` argument.
* The external process world is modelled with ghost state: `live` is the list
  of process ids that were spawned by this program and not yet killed.  The
  `AUDIO_CHILD` slot is `child : Option Nat`.  Spawning draws a fresh pid
  from `nextPid`; spawn failure (`Command::spawn` returning `Err`) is an
  explicit `spawnOk : Bool` parameter.
* Signal delivery (`SIGSTOP` / `SIGCONT`) to an owned, unreaped child cannot
  fail, so the unix `pause_audio` / `resume_audio` are total; on the
  `None`-child branch the Rust functions return `Ok(())` without touching any
  state, which the model reflects by returning the state unchanged.
* The mpv IPC socket writes in `set_volume` / `seek_to` are fire-and-forget
  and never affect the in-memory state, so they are not represented.
-/

namespace Keeplisten

/-- Mirrors `PlaybackState` (src/audio.rs lines 12–20).  `Duration` fields are
`Nat` time units, `Instant` is `Nat`.  The field defaults are exactly Rust's
`Default`: `false`, `0`, `None`. -/
structure PlaybackState where
  is_playing : Bool := false
  is_paused : Bool := false
  position : Nat := 0
  duration : Option Nat := none
  volume : Nat := 0
  last_update : Option Nat := none
deriving Repr, DecidableEq

/-- The audio module's global state: the `AUDIO_CHILD` slot plus the
`PLAYBACK_STATE` (src/audio.rs lines 7–10).  `live` is ghost state: the pids
this program has spawned and not yet killed (used to state the
single-owned-process invariant); `nextPid` is the fresh-pid source for
`spawn`. -/
structure AudioState where
  child : Option Nat := none
  st : PlaybackState := {}
  live : List Nat := []
  nextPid : Nat := 0
deriving Repr, DecidableEq

/-- Mirrors `stop_audio` (src/audio.rs lines 98–109): if a child is owned it
is killed and reaped (hence removed from the live ghost list), the slot is
cleared, and the playback state is reset to its default — unconditionally. -/
def stop_audio (s : AudioState) : AudioState :=
  match s.child with
  | some p => { s with child := none, live := s.live.filter (fun q => q ≠ p), st := {} }
  | none => { s with child := none, st := {} }

/-- Mirrors `play_audio` (src/audio.rs lines 22–48): first `stop_audio`, then
spawn mpv on `file_path`.  On spawn success the fresh child is stored and the
state becomes playing/unpaused at position 0 with `last_update = now`; on
spawn failure the `?` operator returns early, leaving the post-`stop_audio`
state. -/
def play_audio (s : AudioState) (file_path : String) (spawnOk : Bool) (now : Nat) : AudioState :=
  let s1 := stop_audio s
  if spawnOk then
    { s1 with
      child := some s1.nextPid,
      live := s1.nextPid :: s1.live,
      nextPid := s1.nextPid + 1,
      st := { s1.st with is_playing := true, is_paused := false,
                         position := 0, last_update := some now } }
  else s1

/-- Mirrors the unix `pause_audio` (src/audio.rs lines 50–63): if a child is
owned, deliver SIGSTOP and set `is_paused := true`; otherwise do nothing and
return `Ok(())`. -/
def pause_audio (s : AudioState) : AudioState :=
  match s.child with
  | some _ => { s with st := { s.st with is_paused := true } }
  | none => s

/-- Mirrors the unix `resume_audio` (src/audio.rs lines 65–79): if a child is
owned, deliver SIGCONT, set `is_paused := false` and refresh `last_update` to
the current instant; otherwise do nothing and return `Ok(())`. -/
def resume_audio (s : AudioState) (now : Nat) : AudioState :=
  match s.child with
  | some _ => { s with st := { s.st with is_paused := false, last_update := some now } }
  | none => s

/-- Mirrors `set_volume` (src/audio.rs lines 111–124): after the best-effort
IPC write, the volume argument is stored directly (no clamping at this entry
point). -/
def set_volume (s : AudioState) (volume : Nat) : AudioState :=
  { s with st := { s.st with volume := volume } }

/-- Mirrors `seek_to` (src/audio.rs lines 126–139): after the best-effort IPC
write, the position snapshot is unconditionally set to the argument. -/
def seek_to (s : AudioState) (position : Nat) : AudioState :=
  { s with st := { s.st with position := position } }

/-- Mirrors `update_position` (src/audio.rs lines 145–154): when playing and
not paused and `last_update` is set, advance `position` by the wall-clock
elapsed since `last_update` and refresh `last_update`. -/
def update_position (s : AudioState) (now : Nat) : AudioState :=
  if s.st.is_playing && !s.st.is_paused then
    match s.st.last_update with
    | some lu =>
      { s with st := { s.st with position := s.st.position + (now - lu),
                                 last_update := some now } }
    | none => s
  else s

/-- A sequence of periodic `update_position` calls at the given instants
(the reconciliation ticks of the session loop). -/
def updateSeq (times : List Nat) (s : AudioState) : AudioState :=
  times.foldl update_position s

/-- The ownership invariant of the audio module: every live process spawned by
the program is the one held in the `AUDIO_CHILD` slot, and there is at most
one of them. -/
def ownedInv (s : AudioState) : Prop :=
  s.live.length ≤ 1 ∧ ∀ p ∈ s.live, s.child = some p

/-- A sequence of `play_audio` calls: each list entry gives the file path, the
spawn outcome and the instant of the call. -/
def playSeq (calls : List (String × Bool × Nat)) (s : AudioState) : AudioState :=
  calls.foldl (fun acc c => play_audio acc c.1 c.2.1 c.2.2) s

/-- Mirrors `Track` (src/playlist.rs lines 6–12). -/
structure Track where
  title : String
  file_path : String
  url : Option String
  duration : Option String
deriving Repr, DecidableEq

/-- Mirrors `Playlist` (src/playlist.rs lines 14–18). -/
structure Playlist where
  name : String
  tracks : List Track
deriving Repr, DecidableEq

/-- Mirrors `Playlist::new` (src/playlist.rs lines 21–26). -/
def Playlist.new (name : String) : Playlist :=
  { name := name, tracks := [] }

/-- Mirrors `Playlist::add_track` (src/playlist.rs lines 28–30): push at the
end. -/
def Playlist.add_track (pl : Playlist) (t : Track) : Playlist :=
  { pl with tracks := pl.tracks ++ [t] }

/-- Mirrors `PlaylistManager` (src/playlist.rs lines 60–63).  The
`HashMap<String, Playlist>` is modelled as an association list with unique
keys; the map's iteration order is irrelevant to every claim proved below. -/
structure PlaylistManager where
  playlists : List (String × Playlist)
deriving Repr, DecidableEq

/-- `HashMap::get`: the playlist stored under `name`, if any. -/
def lookupPl (m : PlaylistManager) (name : String) : Option Playlist :=
  (m.playlists.find? (fun kv => kv.1 = name)).map (fun kv => kv.2)

/-- `HashMap::insert`: replaces any entry with the same key. -/
def insertPl (m : PlaylistManager) (name : String) (pl : Playlist) : PlaylistManager :=
  { playlists := m.playlists.filter (fun kv => kv.1 ≠ name) ++ [(name, pl)] }

/-- Mirrors `PlaylistManager::create_playlist` (src/playlist.rs lines 72–79):
returns `false` and leaves the store alone when the name exists, otherwise
inserts `Playlist::new name` and returns `true`. -/
def create_playlist (m : PlaylistManager) (name : String) : Bool × PlaylistManager :=
  if (lookupPl m name).isSome then (false, m)
  else (true, { playlists := m.playlists ++ [(name, Playlist.new name)] })

/-- Mirrors `PlaylistManager::delete_playlist` (src/playlist.rs lines 81–83):
`self.playlists.remove(name).is_some()`. -/
def delete_playlist (m : PlaylistManager) (name : String) : Bool × PlaylistManager :=
  if (lookupPl m name).isSome then
    (true, { playlists := m.playlists.filter (fun kv => kv.1 ≠ name) })
  else (false, m)

/-- Mirrors `PlaylistManager::add_track_to_playlist` (src/playlist.rs lines
85–92). -/
def add_track_to_playlist (m : PlaylistManager) (name : String) (t : Track) :
    Bool × PlaylistManager :=
  if (lookupPl m name).isSome then
    (true, { playlists := m.playlists.map
               (fun kv => if kv.1 = name then (kv.1, kv.2.add_track t) else kv) })
  else (false, m)

/-! ### Persistence (m3u files)

The filesystem directory is modelled as a list of `(file name, file content)`
pairs.  `Path` accessors are modelled for the simple relative paths the
program manipulates (`dir/name.m3u`, `music/a.mp3`). -/

/-- Split a character list at every occurrence of `c` (the list of pieces is
never empty).  Structural-recursive stand-in for `str::split` so that every
definition below evaluates inside the kernel. -/
def splitOnChar (c : Char) : List Char → List (List Char)
  | [] => [[]]
  | x :: xs =>
    match splitOnChar c xs with
    | [] => [[]]
    | h :: t => if x = c then [] :: h :: t else (x :: h) :: t

/-- Rust `Path::file_name` for the simple relative paths the program builds:
the component after the last `/`. -/
def rustFileName (s : String) : List Char :=
  (splitOnChar '/' s.toList).getLastD []

/-- Rust `Path::file_stem` on the file name: everything before the last `.`;
the whole name when there is no `.`, or when the only `.` is the leading one
(hidden files).  Returns the whole-file-name fallback as a `String` (the code
always applies `unwrap_or`). -/
def rustFileStem (s : String) : String :=
  let f := rustFileName s
  let parts := splitOnChar '.' f
  if parts.length ≤ 1 then String.mk f
  else if parts.headD [] = [] && parts.length = 2 then String.mk f
  else String.mk (List.intercalate ['.'] parts.dropLast)

/-- Rust `Path::extension` on the file name: everything after the last `.`,
`none` when there is no `.` or the only `.` is the leading one. -/
def rustExtension (s : String) : Option String :=
  let f := rustFileName s
  let parts := splitOnChar '.' f
  if parts.length ≤ 1 then none
  else if parts.headD [] = [] && parts.length = 2 then none
  else some (String.mk (parts.getLastD []))

/-- Rust `str::trim` (ASCII whitespace suffices for the paths in play). -/
def rustTrim (s : String) : String :=
  String.mk (((s.toList.dropWhile Char.isWhitespace).reverse.dropWhile
    Char.isWhitespace).reverse)

/-- Rust `str::lines`: split on `\n`, drop one trailing empty piece, strip a
trailing `\r` from each line. -/
def rustLines (s : String) : List String :=
  let parts := splitOnChar '\n' s.toList
  let parts := if parts.getLastD [] = [] then parts.dropLast else parts
  parts.map (fun l => String.mk (if l.getLast? = some '\r' then l.dropLast else l))

/-- The bytes `save_all_to_dir` writes for one playlist: one
`writeln!(file, "{}", track.file_path)` per track. -/
def renderPlaylist (pl : Playlist) : String :=
  String.join (pl.tracks.map (fun t => t.file_path ++ "\n"))

/-- Mirrors `PlaylistManager::save_all_to_dir` (src/playlist.rs lines
137–147): the directory contents after saving, one `name.m3u` file per
playlist holding the track file paths in list order. -/
def save_all_to_dir (m : PlaylistManager) : List (String × String) :=
  m.playlists.map (fun kv => (kv.1 ++ ".m3u", renderPlaylist kv.2))

/-- The title `load_all_from_dir` derives for a loaded path:
`Path::new(file_path).file_stem().and_then(to_str).unwrap_or(file_path)`. -/
def loadTitle (file_path : String) : String :=
  let st := rustFileStem file_path
  if st = "" then file_path else st

/-- The track list `load_all_from_dir` parses from one m3u file's content:
trim each line, skip empty lines, derive the title from the file name. -/
def parseTracks (content : String) : List Track :=
  (rustLines content).foldl
    (fun acc line =>
      let fp := rustTrim line
      if fp = "" then acc
      else acc ++ [{ title := loadTitle fp, file_path := fp, url := none, duration := none }])
    []

/-- Mirrors `PlaylistManager::load_all_from_dir` (src/playlist.rs lines
150–182): clear the store, then rebuild one playlist per `.m3u` file in the
directory, the playlist name being the file stem (`"playlist"` when the stem
is unavailable). -/
def load_all_from_dir (m : PlaylistManager) (dir : List (String × String)) :
    PlaylistManager :=
  let _ := m
  dir.foldl
    (fun acc file =>
      if rustExtension file.1 = some "m3u" then
        let name := let st := rustFileStem file.1; if st = "" then "playlist" else st
        insertPl acc name { name := name, tracks := parseTracks file.2 }
      else acc)
    { playlists := [] }

/-! ### Session layer (src/main.rs) -/

/-- Mirrors `AppState` (src/main.rs lines 24–37), restricted to the fields the
session operations touch (the UI-only fields `show_help`, `search_mode`,
`search_input` and the tick timestamp `last_update` are carried by the render
loop, not by the modelled operations).  `progress: f64` only ever takes values
reachable by `:= 0.0` in the modelled operations, represented as `Rat`. -/
structure AppState where
  playlist_manager : PlaylistManager
  current_playlist : String
  current_track : Nat
  is_playing : Bool
  is_paused : Bool
  volume : Nat
  progress : Rat
  status_message : String
deriving Repr, DecidableEq

/-- Mirrors `AppState::new` (src/main.rs lines 40–57). -/
def AppState.new : AppState :=
  { playlist_manager := (create_playlist { playlists := [] } "default").2,
    current_playlist := "default",
    current_track := 0,
    is_playing := false,
    is_paused := false,
    volume := 70,
    progress := 0,
    status_message := "Prêt - Utilisez 's' pour rechercher une musique" }

/-- Mirrors `AppState::current_tracks` (src/main.rs lines 59–65). -/
def AppState.current_tracks (a : AppState) : List Track :=
  match lookupPl a.playlist_manager a.current_playlist with
  | some pl => pl.tracks
  | none => []

/-- The app state together with the audio module's global state; the session
operations drive both. -/
structure Session where
  app : AppState
  audio : AudioState
deriving Repr, DecidableEq

/-- The title of the track at `idx`, used for status messages
(`tracks[self.current_track].title`). -/
def titleAt (tracks : List Track) (idx : Nat) : String :=
  ((tracks[idx]?).map (fun t => t.title)).getD ""

/-- Mirrors `AppState::play_current_track` (src/main.rs lines 125–142):
look up the track at the current index; if present, stop audio, try
`play_audio`, and set the flags and status from the outcome.  `spawnRes` is
`none` on spawn success, `some e` with the error's display text on failure. -/
def play_current_track (s : Session) (spawnRes : Option String) (now : Nat) : Session :=
  let tracks := s.app.current_tracks
  match tracks[s.app.current_track]? with
  | some track =>
    let au := stop_audio s.audio
    match spawnRes with
    | none =>
      { app := { s.app with is_playing := true, is_paused := false,
                            status_message := "▶️ Lecture: " ++ track.title },
        audio := play_audio au track.file_path true now }
    | some e =>
      { app := { s.app with is_playing := false, is_paused := false,
                            status_message := "❌ Erreur lecture: " ++ e },
        audio := play_audio au track.file_path false now }
  | none => s

/-- Mirrors `AppState::next_track` (src/main.rs lines 74–85): no-op on an
empty active playlist; otherwise stop audio, advance the index modulo the
track count, reset progress and flags, then play the new current track. -/
def next_track (s : Session) (spawnRes : Option String) (now : Nat) : Session :=
  let tracks := s.app.current_tracks
  if tracks.isEmpty then s
  else
    let au := stop_audio s.audio
    let idx := (s.app.current_track + 1) % tracks.length
    let a := { s.app with current_track := idx, progress := 0,
                          is_playing := false, is_paused := false,
                          status_message := "Piste suivante: " ++ titleAt tracks idx }
    play_current_track { app := a, audio := au } spawnRes now

/-- Mirrors `AppState::previous_track` (src/main.rs lines 87–102): no-op on an
empty active playlist; otherwise stop audio, step the index back (wrapping
from 0 to `len - 1`), reset progress and flags, then play the new current
track. -/
def previous_track (s : Session) (spawnRes : Option String) (now : Nat) : Session :=
  let tracks := s.app.current_tracks
  if tracks.isEmpty then s
  else
    let au := stop_audio s.audio
    let idx := if s.app.current_track = 0 then tracks.length - 1
               else s.app.current_track - 1
    let a := { s.app with current_track := idx, progress := 0,
                          is_playing := false, is_paused := false,
                          status_message := "Piste précédente: " ++ titleAt tracks idx }
    play_current_track { app := a, audio := au } spawnRes now

/-- Rust `as i8` on a `u8` value: two's-complement reinterpretation. -/
def toI8 (n : Nat) : Int :=
  let r := n % 256
  if r < 128 then (r : Int) else (r : Int) - 256

/-- `i8` wrap-around of an integer (release-mode two's-complement overflow
behaviour of `i8` addition). -/
def wrapI8 (x : Int) : Int := (x + 128) % 256 - 128

/-- Mirrors `AppState::adjust_volume` (src/main.rs lines 144–148):
`(self.volume as i8 + delta).clamp(0, 100) as u8`. -/
def adjust_volume (a : AppState) (delta : Int) : AppState :=
  let new_volume := (min 100 (max 0 (wrapI8 (toI8 a.volume + delta)))).toNat
  { a with volume := new_volume,
           status_message := "🔊 Volume: " ++ toString new_volume ++ "%" }

/-! ### Helper lemmas -/

/-- After `stop_audio`, no process is owned and no spawned process is live
(given the ownership invariant held before). -/
theorem stop_audio_clears (s : AudioState) (h : ownedInv s) :
    (stop_audio s).live = [] ∧ (stop_audio s).child = none := by
  cases hc : s.child with
  | none =>
    have hl : s.live = [] := by
      cases hl : s.live with
      | nil => rfl
      | cons q qs =>
        have := h.2 q (by simp [hl])
        rw [hc] at this
        exact absurd this (by simp)
    simp [stop_audio, hc, hl]
  | some p =>
    have hl : s.live = [] ∨ s.live = [p] := by
      cases hl : s.live with
      | nil => exact Or.inl rfl
      | cons q qs =>
        have hq : s.child = some q := h.2 q (by simp [hl])
        rw [hc] at hq
        have hqp : q = p := (Option.some_inj.mp hq).symm
        have hlen := h.1
        rw [hl] at hlen
        have hqs : qs = [] := by
          cases qs with
          | nil => rfl
          | cons r rs => simp at hlen
        exact Or.inr (by rw [hqp, hqs])
    rcases hl with hl | hl <;> simp [stop_audio, hc, hl]

/-- `play_audio` preserves the ownership invariant. -/
theorem play_audio_ownedInv (s : AudioState) (fp : String) (ok : Bool) (now : Nat)
    (h : ownedInv s) : ownedInv (play_audio s fp ok now) := by
  have hs := stop_audio_clears s h
  cases ok with
  | true =>
    refine ⟨?_, ?_⟩
    · simp [play_audio, hs.1]
    · intro p hp
      simp [play_audio, hs.1] at hp
      subst hp
      simp [play_audio, hs.1]
  | false =>
    refine ⟨?_, ?_⟩
    · simp [play_audio, hs.1]
    · intro p hp
      simp [play_audio, hs.1] at hp

/-! ### Claims -/

/-- C1.  For every sequence of `play_audio` calls (any file paths, spawn
outcomes and instants) starting from a state satisfying the ownership
invariant, the invariant holds after each call and at most one owned external
process is live: `play_audio` stops (kills and discards) any previously owned
process via `stop_audio` before spawning and storing the new one. -/
theorem play_audio_single_owned (calls : List (String × Bool × Nat)) (s : AudioState)
    (h : ownedInv s) :
    ownedInv (playSeq calls s) ∧ (playSeq calls s).live.length ≤ 1 := by
  induction calls generalizing s with
  | nil => exact ⟨h, h.1⟩
  | cons c cs ih =>
    have h' : ownedInv (play_audio s c.1 c.2.1 c.2.2) :=
      play_audio_ownedInv s c.1 c.2.1 c.2.2 h
    simpa [playSeq, List.foldl_cons] using ih _ h'

/-- Witness for C1: the initial state (empty slot, no live process) satisfies
the invariant, and after two concrete successful `play_audio` calls at most
one owned process is live. -/
theorem play_audio_single_owned_witness :
    ownedInv ({} : AudioState) ∧
      (playSeq [("a.mp3", true, 0), ("b.mp3", true, 1)] {}).live.length ≤ 1 := by
  have h0 : ownedInv ({} : AudioState) := by
    constructor
    · simp
    · intro p hp
      simp at hp
  exact ⟨h0, (play_audio_single_owned [("a.mp3", true, 0), ("b.mp3", true, 1)] {} h0).2⟩

/-- The default of `getLastD` is dropped on a cons cell. -/
theorem getLastD_cons_eq (a : Nat) (l : List Nat) (d : Nat) :
    (a :: l).getLastD d = l.getLastD a := by
  cases l <;> simp [List.getLastD]

/-- Along a `≤`-chain the last element dominates the head. -/
theorem le_getLastD (u : Nat) (rest : List Nat) (h : List.Chain (· ≤ ·) u rest) :
    u ≤ rest.getLastD u := by
  induction rest generalizing u with
  | nil => exact Nat.le_refl u
  | cons v vs ih =>
    cases h with
    | cons huv hch =>
      rw [getLastD_cons_eq]
      exact Nat.le_trans huv (ih v hch)

/-- Running `update_position` at a monotone sequence of instants starting from
`last_update = some lu` accumulates exactly the wall-clock span from `lu` to
the last instant, keeps playing/unpaused, and leaves `last_update` at the
last instant. -/
theorem updateSeq_accum (us : List Nat) (s : AudioState) (lu : Nat)
    (hp : s.st.is_playing = true) (hq : s.st.is_paused = false)
    (hl : s.st.last_update = some lu) (hchain : List.Chain (· ≤ ·) lu us) :
    (updateSeq us s).st.is_playing = true ∧
      (updateSeq us s).st.is_paused = false ∧
      (updateSeq us s).st.last_update = some (us.getLastD lu) ∧
      (updateSeq us s).st.position = s.st.position + (us.getLastD lu - lu) := by
  induction us generalizing s lu with
  | nil =>
    refine ⟨hp, hq, ?_, ?_⟩
    · simpa [updateSeq, List.getLastD] using hl
    · simp [updateSeq, List.getLastD]
  | cons u rest ih =>
    cases hchain with
    | cons hlu hch =>
      have hstep : update_position s u =
          { s with st := { s.st with position := s.st.position + (u - lu),
                                     last_update := some u } } := by
        simp [update_position, hp, hq, hl]
      have hrun := ih (update_position s u) u
        (by rw [hstep]; exact hp) (by rw [hstep]; exact hq) (by rw [hstep]) hch
      have hle : u ≤ rest.getLastD u := le_getLastD u rest hch
      refine ⟨hrun.1, hrun.2.1, ?_, ?_⟩
      · rw [show updateSeq (u :: rest) s = updateSeq rest (update_position s u) from rfl,
          hrun.2.2.1, getLastD_cons_eq]
      · rw [show updateSeq (u :: rest) s = updateSeq rest (update_position s u) from rfl,
          hrun.2.2.2, hstep, getLastD_cons_eq]
        simp only []
        omega

/-- C2.  Pausing then resuming an owned process leaves `is_paused = false`,
and the position accumulated by any number of subsequent `update_position`
calls at monotone instants `us` equals the prior position plus exactly the
wall-clock span from the resume instant `t2` to the last update instant:
time spent paused (before `t2`) is never added, because `resume_audio`
refreshes `last_update` to the resume instant and `update_position` only
advances while playing and unpaused. -/
theorem pause_resume_position (s : AudioState) (pid : Nat) (t2 : Nat) (us : List Nat)
    (hc : s.child = some pid) (hp : s.st.is_playing = true)
    (hchain : List.Chain (· ≤ ·) t2 us) :
    (updateSeq us (resume_audio (pause_audio s) t2)).st.is_paused = false ∧
      (updateSeq us (resume_audio (pause_audio s) t2)).st.position =
        s.st.position + (us.getLastD t2 - t2) := by
  have hs2 : resume_audio (pause_audio s) t2 =
      { s with st := { s.st with is_paused := false, last_update := some t2 } } := by
    simp [pause_audio, resume_audio, hc]
  have hrun := updateSeq_accum us (resume_audio (pause_audio s) t2) t2
    (by rw [hs2]; exact hp) (by rw [hs2]) (by rw [hs2]) hchain
  exact ⟨hrun.2.1, by rw [hrun.2.2.2, hs2]⟩

/-- Witness for C2: a concrete owned playing state paused, resumed at instant
10 and updated at instants 12 and 17 gains exactly 7 time units. -/
theorem pause_resume_position_witness :
    (updateSeq [12, 17] (resume_audio (pause_audio (play_audio {} "a.mp3" true 0)) 10)).st.is_paused
        = false ∧
      (updateSeq [12, 17] (resume_audio (pause_audio (play_audio {} "a.mp3" true 0)) 10)).st.position
        = (play_audio {} "a.mp3" true 0).st.position + ([12, 17].getLastD 10 - 10) :=
  pause_resume_position (play_audio {} "a.mp3" true 0) 0 10 [12, 17] (by decide) (by decide)
    (List.Chain.cons (by omega) (List.Chain.cons (by omega) List.Chain.nil))

/-- C10.  When no external process is owned, `pause_audio` and `resume_audio`
return `Ok(())` (they are total here) and leave the entire audio state — in
particular `is_paused` and `last_update` — unchanged: the signal delivery and
the state update are skipped together. -/
theorem pause_resume_no_child (s : AudioState) (now : Nat) (h : s.child = none) :
    pause_audio s = s ∧ resume_audio s now = s := by
  simp [pause_audio, resume_audio, h]

/-- Witness for C10: the default state owns no process and is untouched by
pause and resume. -/
theorem pause_resume_no_child_witness :
    pause_audio ({} : AudioState) = {} ∧ resume_audio ({} : AudioState) 5 = {} :=
  pause_resume_no_child {} 5 (by decide)

/-- C3 counterexample: the claim "for every argument v passed to
set_volume(v), the stored volume field remains in [0,100]" fails at the
concrete input v = 101 on the default state (whose volume 0 is in range):
`set_volume` stores its argument directly, without clamping. -/
theorem set_volume_escapes_range :
    (set_volume ({} : AudioState) 101).st.volume = 101 ∧
      ¬(set_volume ({} : AudioState) 101).st.volume ≤ 100 := by decide

/-- C3 (amended).  Every playback-controller operation preserves the invariant
volume ∈ [0,100], provided the argument passed to `set_volume` is itself at
most 100 (clamping is the caller's responsibility, done in
`AppState::adjust_volume`): `set_volume` stores its argument directly. -/
theorem volume_inv_preserved (s : AudioState) (fp : String) (ok : Bool)
    (now v pos : Nat) (hs : s.st.volume ≤ 100) (hv : v ≤ 100) :
    (play_audio s fp ok now).st.volume ≤ 100 ∧
      (stop_audio s).st.volume ≤ 100 ∧
      (pause_audio s).st.volume ≤ 100 ∧
      (resume_audio s now).st.volume ≤ 100 ∧
      (set_volume s v).st.volume ≤ 100 ∧
      (seek_to s pos).st.volume ≤ 100 ∧
      (update_position s now).st.volume ≤ 100 := by
  refine ⟨?_, ?_, ?_, ?_, ?_, ?_, ?_⟩
  · cases hc : s.child <;> cases ok <;> simp [play_audio, stop_audio, hc]
  · cases hc : s.child <;> simp [stop_audio, hc]
  · cases hc : s.child <;> simp [pause_audio, hc, hs]
  · cases hc : s.child <;> simp [resume_audio, hc, hs]
  · simp [set_volume, hv]
  · simp [seek_to, hs]
  · unfold update_position
    split
    · split
      · simp [hs]
      · exact hs
    · exact hs

/-- Witness for C3 (amended): concrete instantiation at the default state with
the in-range argument 100. -/
theorem volume_inv_preserved_witness :
    (play_audio ({} : AudioState) "a.mp3" true 0).st.volume ≤ 100 ∧
      (stop_audio ({} : AudioState)).st.volume ≤ 100 ∧
      (pause_audio ({} : AudioState)).st.volume ≤ 100 ∧
      (resume_audio ({} : AudioState) 0).st.volume ≤ 100 ∧
      (set_volume ({} : AudioState) 100).st.volume ≤ 100 ∧
      (seek_to ({} : AudioState) 3).st.volume ≤ 100 ∧
      (update_position ({} : AudioState) 0).st.volume ≤ 100 :=
  volume_inv_preserved {} "a.mp3" true 0 100 3 (by decide) (by decide)

/-- A concrete owned, playing, unpaused state at position 5, used to exercise
`seek_to`. -/
def seekDemoState : AudioState :=
  { child := some 0, live := [0],
    st := { is_playing := true, is_paused := false, position := 5,
            volume := 0, last_update := some 0 },
    nextPid := 1 }

/-- C4 counterexample: in a playing-and-unpaused state at position 5,
`seek_to 0` makes the position smaller — `seek_to` unconditionally overwrites
the position snapshot with its argument, so it is not monotone. -/
theorem seek_to_decreases_position :
    seekDemoState.st.is_playing = true ∧ seekDemoState.st.is_paused = false ∧
      (seek_to seekDemoState 0).st.position < seekDemoState.st.position := by decide

/-- C4 (amended).  While playing and unpaused, `update_position`,
`set_volume`, `pause_audio` and `resume_audio` never decrease the position;
`seek_to` instead sets the position to exactly its argument (and therefore
decreases it whenever the target precedes the current position). -/
theorem position_nondecreasing_except_seek (s : AudioState) (now v pos : Nat)
    (h1 : s.st.is_playing = true) (h2 : s.st.is_paused = false) :
    s.st.position ≤ (update_position s now).st.position ∧
      s.st.position ≤ (set_volume s v).st.position ∧
      s.st.position ≤ (pause_audio s).st.position ∧
      s.st.position ≤ (resume_audio s now).st.position ∧
      (seek_to s pos).st.position = pos := by
  refine ⟨?_, ?_, ?_, ?_, ?_⟩
  · unfold update_position
    split
    · split
      · simp
      · exact Nat.le_refl _
    · exact Nat.le_refl _
  · simp [set_volume]
  · cases hc : s.child <;> simp [pause_audio, hc]
  · cases hc : s.child <;> simp [resume_audio, hc]
  · simp [seek_to]

/-- Witness for C4 (amended): concrete instantiation at an owned playing
state. -/
theorem position_nondecreasing_except_seek_witness :
    seekDemoState.st.position ≤ (update_position seekDemoState 7).st.position ∧
      seekDemoState.st.position ≤ (set_volume seekDemoState 50).st.position ∧
      seekDemoState.st.position ≤ (pause_audio seekDemoState).st.position ∧
      seekDemoState.st.position ≤ (resume_audio seekDemoState 7).st.position ∧
      (seek_to seekDemoState 9).st.position = 9 :=
  position_nondecreasing_except_seek seekDemoState 7 50 9 (by decide) (by decide)

/-- C7.  `adjust_volume` clamps the resulting volume to [0,100]: the result is
never above 100 (and, being a `u8`, never below 0); concretely, from volume 98
a delta of +5 yields 100 (not 103), and from volume 3 a delta of −5 yields 0
(not −2). -/
theorem adjust_volume_clamps :
    (∀ (a : AppState) (d : Int), (adjust_volume a d).volume ≤ 100) ∧
      (adjust_volume { AppState.new with volume := 98 } 5).volume = 100 ∧
      (adjust_volume { AppState.new with volume := 3 } (-5)).volume = 0 := by
  refine ⟨fun a d => ?_, by decide, by decide⟩
  have h : (min 100 (max 0 (wrapI8 (toI8 a.volume + d)))).toNat ≤ 100 := by
    have hm : (min 100 (max 0 (wrapI8 (toI8 a.volume + d)))) ≤ 100 := min_le_left _ _
    omega
  simpa [adjust_volume] using h

/-- `play_current_track` never changes the current index. -/
theorem play_current_track_keeps_index (s : Session) (r : Option String) (now : Nat) :
    (play_current_track s r now).app.current_track = s.app.current_track := by
  unfold play_current_track
  cases h : s.app.current_tracks[s.app.current_track]? <;> cases r <;> simp [h]

/-- The wrapped predecessor index computed by `previous_track` agrees with the
integer formula (i − 1 + n) mod n. -/
theorem prev_index_eq (i n : Nat) (hi : i < n) :
    (((if i = 0 then n - 1 else i - 1) : Nat) : Int) =
      ((i : Int) - 1 + (n : Int)) % (n : Int) := by
  by_cases h0 : i = 0
  · subst h0
    rw [if_pos rfl]
    have h1 : ((0 : Nat) : Int) - 1 + (n : Int) = (n : Int) - 1 := by
      omega
    rw [h1, Int.emod_eq_of_lt (by omega) (by omega)]
    omega
  · rw [if_neg h0]
    have h1 : (i : Int) - 1 + (n : Int) = ((i : Int) - 1) + (n : Int) * 1 := by ring
    rw [h1, Int.add_mul_emod_self_left, Int.emod_eq_of_lt (by omega) (by omega)]
    omega

/-- C5.  On an empty active playlist, `next_track` and `previous_track` are
no-ops leaving the whole session (index, playback flags, everything)
unchanged; on a non-empty playlist of length N with current index i < N,
`next_track` sets the index to (i+1) mod N and `previous_track` to
(i−1+N) mod N (integer arithmetic). -/
theorem track_transitions (s : Session) (r : Option String) (now : Nat) :
    (s.app.current_tracks.isEmpty = true →
        next_track s r now = s ∧ previous_track s r now = s) ∧
      (s.app.current_track < s.app.current_tracks.length →
        (next_track s r now).app.current_track =
            (s.app.current_track + 1) % s.app.current_tracks.length ∧
          ((previous_track s r now).app.current_track : Int) =
            ((s.app.current_track : Int) - 1 + (s.app.current_tracks.length : Int)) %
              (s.app.current_tracks.length : Int)) := by
  constructor
  · intro he
    constructor <;> simp [next_track, previous_track, he]
  · intro hi
    have hpos : 0 < s.app.current_tracks.length := Nat.lt_of_le_of_lt (Nat.zero_le _) hi
    have hne : s.app.current_tracks.isEmpty = false := by
      cases htr : s.app.current_tracks with
      | nil => rw [htr] at hpos; simp at hpos
      | cons a as => simp
    constructor
    · simp [next_track, hne, play_current_track_keeps_index]
    · simp only [previous_track, hne, Bool.false_eq_true, if_false,
        play_current_track_keeps_index]
      exact prev_index_eq _ _ hi

/-- A track with a derived file path, for concrete sessions. -/
def demoTrack (n : String) : Track :=
  { title := n, file_path := n ++ ".mp3", url := none, duration := none }

/-- A session whose default playlist holds three tracks, index 0. -/
def demoSession : Session :=
  { app := { AppState.new with playlist_manager :=
      { playlists := [("default",
          { name := "default", tracks := [demoTrack "x", demoTrack "y", demoTrack "z"] })] } },
    audio := {} }

/-- A session whose default playlist is empty. -/
def emptySession : Session := { app := AppState.new, audio := {} }

/-- Witness for C5: with N = 3 and i = 0, `next_track` yields index 1 and
`previous_track` yields index 2; on the empty default playlist both are
no-ops. -/
theorem track_transitions_witness :
    (next_track demoSession none 0).app.current_track = 1 ∧
      ((previous_track demoSession none 0).app.current_track : Int) = 2 ∧
      next_track emptySession none 0 = emptySession ∧
      previous_track emptySession none 0 = emptySession := by
  have h3 := (track_transitions demoSession none 0).2 (by decide)
  have he := (track_transitions emptySession none 0).1 (by decide)
  refine ⟨?_, ?_, he.1, he.2⟩
  · rw [h3.1]; decide
  · rw [h3.2]; decide

/-- Appending a fresh entry at the end of the store makes it visible to lookup
when the key was absent before. -/
theorem lookupPl_append_fresh (l : List (String × Playlist)) (name : String) (pl : Playlist)
    (h : lookupPl { playlists := l } name = none) :
    lookupPl { playlists := l ++ [(name, pl)] } name = some pl := by
  induction l with
  | nil => simp [lookupPl, List.find?]
  | cons kv kvs ih =>
    by_cases hk : kv.1 = name
    · exfalso
      simp [lookupPl, List.find?_cons, hk] at h
    · simp only [lookupPl, List.cons_append, List.find?_cons] at h ⊢
      rw [show (decide (kv.1 = name)) = false by simp [hk]] at h ⊢
      exact ih h

/-- Rewriting one entry's payload in place does not change which keys
`find?` resolves. -/
theorem find_after_edit (l : List (String × Playlist)) (nm nm' : String) (t : Track) :
    ((l.map (fun kv => if kv.1 = nm then (kv.1, kv.2.add_track t) else kv)).find?
        (fun kv => decide (kv.1 = nm'))).isSome
      = (l.find? (fun kv => decide (kv.1 = nm'))).isSome := by
  induction l with
  | nil => rfl
  | cons kv kvs ih =>
    simp only [List.map_cons, List.find?_cons]
    by_cases h1 : kv.1 = nm
    · rw [if_pos h1]
      by_cases h2 : kv.1 = nm'
      · rw [show (decide ((kv.1, kv.2.add_track t).1 = nm')) = true by simpa using h2]
        rfl
      · rw [show (decide ((kv.1, kv.2.add_track t).1 = nm')) = false by simpa using h2]
        exact ih
    · rw [if_neg h1]
      by_cases h2 : kv.1 = nm'
      · rw [show (decide (kv.1 = nm')) = true by simpa using h2]
      · rw [show (decide (kv.1 = nm')) = false by simpa using h2]
        exact ih

/-- `Option.map` does not affect `isSome`. -/
theorem isSome_after_map {α β : Type} (o : Option α) (f : α → β) :
    (o.map f).isSome = o.isSome := by
  cases o <;> rfl

/-- `add_track_to_playlist` does not change which names resolve in the
store. -/
theorem lookup_after_add (m : PlaylistManager) (nm nm' : String) (t : Track) :
    (lookupPl (add_track_to_playlist m nm t).2 nm').isSome = (lookupPl m nm').isSome := by
  unfold add_track_to_playlist
  split
  · simp only [lookupPl, isSome_after_map]
    exact find_after_edit m.playlists nm nm' t
  · rfl

/-- `create_playlist` on a present name returns `false` and the unchanged
store. -/
theorem create_on_present (m : PlaylistManager) (nm : String)
    (h : (lookupPl m nm).isSome = true) : create_playlist m nm = (false, m) := by
  unfold create_playlist
  rw [if_pos h]

/-- Any sequence of `add_track_to_playlist` calls keeps the name
resolvable. -/
theorem lookup_after_adds (ts : List Track) (m : PlaylistManager) (nm : String)
    (h : (lookupPl m nm).isSome = true) :
    (lookupPl (ts.foldl (fun acc t => (add_track_to_playlist acc nm t).2) m) nm).isSome
      = true := by
  induction ts generalizing m with
  | nil => exact h
  | cons t ts ih =>
    rw [List.foldl_cons]
    exact ih _ (by rw [lookup_after_add]; exact h)

/-- C8.  When `name` is absent, the first `create_playlist name` returns
`true` and stores the empty playlist `Playlist::new name`; a second
`create_playlist name` — even after any tracks were added to the playlist in
between — returns `false` and leaves the entire store (every name and every
track list) unchanged. -/
theorem create_playlist_twice (m : PlaylistManager) (name : String) (ts : List Track)
    (h : lookupPl m name = none) :
    (create_playlist m name).1 = true ∧
      lookupPl (create_playlist m name).2 name = some (Playlist.new name) ∧
      create_playlist
          (ts.foldl (fun acc t => (add_track_to_playlist acc name t).2)
            (create_playlist m name).2) name
        = (false, ts.foldl (fun acc t => (add_track_to_playlist acc name t).2)
            (create_playlist m name).2) := by
  have hnone : (lookupPl m name).isSome = false := by rw [h]; rfl
  refine ⟨?_, ?_, ?_⟩
  · simp [create_playlist, hnone]
  · rw [show (create_playlist m name).2 = { playlists := m.playlists ++ [(name, Playlist.new name)] }
      by simp [create_playlist, hnone]]
    exact lookupPl_append_fresh m.playlists name (Playlist.new name) h
  · have hlook : (lookupPl (create_playlist m name).2 name).isSome = true := by
      rw [show (create_playlist m name).2 = { playlists := m.playlists ++ [(name, Playlist.new name)] }
        by simp [create_playlist, hnone]]
      rw [lookupPl_append_fresh m.playlists name (Playlist.new name) h]
      rfl
    exact create_on_present _ name (lookup_after_adds ts (create_playlist m name).2 name hlook)

/-- Witness for C8: creating "mix" in the empty store, adding one track, then
creating "mix" again. -/
theorem create_playlist_twice_witness :
    (create_playlist { playlists := [] } "mix").1 = true ∧
      lookupPl (create_playlist { playlists := [] } "mix").2 "mix" = some (Playlist.new "mix") ∧
      create_playlist
          ([demoTrack "x"].foldl (fun acc t => (add_track_to_playlist acc "mix" t).2)
            (create_playlist { playlists := [] } "mix").2) "mix"
        = (false, [demoTrack "x"].foldl (fun acc t => (add_track_to_playlist acc "mix" t).2)
            (create_playlist { playlists := [] } "mix").2) :=
  create_playlist_twice { playlists := [] } "mix" [demoTrack "x"] (by decide)

/-- C9.  Deleting a name absent from the store returns `false` and leaves the
store — its set of playlist names and every playlist's contents — entirely
unchanged. -/
theorem delete_playlist_absent (m : PlaylistManager) (name : String)
    (h : lookupPl m name = none) :
    delete_playlist m name = (false, m) := by
  have hnone : (lookupPl m name).isSome = false := by rw [h]; rfl
  simp [delete_playlist, hnone]

/-- Witness for C9: deleting the absent name "x" from a store holding only
"default". -/
theorem delete_playlist_absent_witness :
    delete_playlist { playlists := [("default", Playlist.new "default")] } "x"
      = (false, { playlists := [("default", Playlist.new "default")] }) :=
  delete_playlist_absent { playlists := [("default", Playlist.new "default")] } "x" (by decide)

/-- A store holding one playlist `name` whose two tracks have file paths
"music/a.mp3" and "music/b.mp3" and arbitrary titles. -/
def rtStore (name tA tB : String) : PlaylistManager :=
  { playlists := [(name,
      { name := name,
        tracks := [
          { title := tA, file_path := "music/a.mp3", url := none, duration := none },
          { title := tB, file_path := "music/b.mp3", url := none, duration := none }] })] }

/-- The track list `load_all_from_dir` reconstructs from the saved m3u
content: paths in order, titles derived from the file name stems. -/
def rtTracks : List Track :=
  [{ title := "a", file_path := "music/a.mp3", url := none, duration := none },
   { title := "b", file_path := "music/b.mp3", url := none, duration := none }]

/-- C6.  Saving a playlist whose tracks have file paths
["music/a.mp3", "music/b.mp3"] and reloading from the same directory
reconstructs a playlist with exactly those two paths in that order, and with
titles "a" and "b" derived from the file name stems — regardless of the
titles `tA`, `tB` the tracks carried before saving (the round trip is
path-and-order preserving but title-lossy).  The hypotheses pin the playlist
name to one whose `name.m3u` file round-trips through the path accessors
(any ordinary name: no `/`, nonempty). -/
theorem save_load_roundtrip (name tA tB : String)
    (h1 : rustFileStem (name ++ ".m3u") = name)
    (h2 : rustExtension (name ++ ".m3u") = some "m3u")
    (h3 : name ≠ "") :
    ((lookupPl (load_all_from_dir (rtStore name tA tB) (save_all_to_dir (rtStore name tA tB)))
          name).map (fun pl => pl.tracks.map (fun t => t.file_path)))
        = some ["music/a.mp3", "music/b.mp3"] ∧
      ((lookupPl (load_all_from_dir (rtStore name tA tB) (save_all_to_dir (rtStore name tA tB)))
          name).map (fun pl => pl.tracks.map (fun t => t.title)))
        = some ["a", "b"] := by
  have hsave : save_all_to_dir (rtStore name tA tB)
      = [(name ++ ".m3u", "music/a.mp3\nmusic/b.mp3\n")] := rfl
  have key : load_all_from_dir (rtStore name tA tB) (save_all_to_dir (rtStore name tA tB))
      = { playlists := [(name, { name := name, tracks := rtTracks })] } := by
    rw [hsave]
    unfold load_all_from_dir
    simp only [List.foldl_cons, List.foldl_nil]
    rw [if_pos h2]
    simp only [h1]
    rw [if_neg h3]
    rw [show parseTracks "music/a.mp3\nmusic/b.mp3\n" = rtTracks from by decide]
    rfl
  rw [key]
  constructor <;> simp [lookupPl, List.find?_cons, rtTracks]

/-- Witness for C6: the concrete playlist name "rock" with pre-save titles
"Song One" and "Song Two"; after the round trip the paths survive in order
and the titles are the stems "a" and "b". -/
theorem save_load_roundtrip_witness :
    ((lookupPl (load_all_from_dir (rtStore "rock" "Song One" "Song Two")
          (save_all_to_dir (rtStore "rock" "Song One" "Song Two")))
          "rock").map (fun pl => pl.tracks.map (fun t => t.file_path)))
        = some ["music/a.mp3", "music/b.mp3"] ∧
      ((lookupPl (load_all_from_dir (rtStore "rock" "Song One" "Song Two")
          (save_all_to_dir (rtStore "rock" "Song One" "Song Two")))
          "rock").map (fun pl => pl.tracks.map (fun t => t.title)))
        = some ["a", "b"] :=
  save_load_roundtrip "rock" "Song One" "Song Two" (by decide) (by decide) (by decide)

end Keeplisten
